import Mathlib

/-!
Verification of `twisted/threads/_team.py` (class `Team`, a composite worker
pool coordinated through a serializing worker).

The embedding models the pool as a single state record.  The fields named
after the Python attributes (`idle`, `busyCount`, `pending`, `coordinatorQuit`,
`toShrink`) are translated directly from the source; the remaining fields
model the environment the class runs in:

* `quitIsSet` embeds the flag of the `Quit` helper object (`self._quit`),
  which lives in `twisted/threads/_convenience.py` and is not part of the
  sources at hand; it is therefore modelled from the spec (a one-shot flag,
  set idempotently by `quit`, making public operations fail once set).
* `factoryPlan` is an oracle for the external `createWorker` factory: each
  call consumes the head of the plan; `true` produces a fresh worker,
  `false` (or an exhausted plan) is the factory declining (`None`).
* `coordQueue` is the queue of items submitted to the coordinator worker,
  which executes them one at a time in submission order.
* `running` holds the `doWork` items submitted to pool workers that have not
  yet run (worker `w` running `task`).
* `createdCount`, `retired`, `coordinatorQuitCount`, `logExceptionCount`,
  `dispatched`, `executed` are observation counters/logs used to state the
  verified properties; they do not influence control flow.

The Python `set` used for `_idle` is represented as a `List Nat` of worker
identifiers: `add` is cons, the arbitrary `pop` takes the head, `remove` is
`List.erase`.  `_pending` (a `deque` used FIFO) is a `List WorkItem` with
`append` at the back and `popleft` at the front.
-/

/-- Work item passed to `Team.do`: an identifier plus whether calling it
raises an exception (the only behaviour of a 0-argument callable the pool
can observe). -/
structure WorkItem where
  id : Nat
  raises : Bool
deriving DecidableEq, Repr

/-- Items submitted to the coordinator worker.  `coordinateTask` comes from
`Team.do`, `growWorkers` from `Team.grow`, `quitIdlersItem` from
`Team.shrink` / `Team.quit`, and `idleAndPending` is the closure a worker
submits back to the coordinator when its `doWork` item finishes. -/
inductive CoordItem where
  | coordinateTask (t : WorkItem)
  | growWorkers (n : Nat)
  | quitIdlersItem (n : Option Nat)
  | idleAndPending (w : Nat)
deriving DecidableEq, Repr

/-- State of a `Team` together with its environment (coordinator queue,
worker queues, factory oracle) and observation logs. -/
structure Team where
  idle : List Nat
  busyCount : Nat
  pending : List WorkItem
  coordinatorQuit : Bool
  toShrink : Nat
  quitIsSet : Bool
  factoryPlan : List Bool
  nextWorkerId : Nat
  coordQueue : List CoordItem
  running : List (Nat × WorkItem)
  createdCount : Nat
  retired : List Nat
  coordinatorQuitCount : Nat
  logExceptionCount : Nat
  dispatched : List Nat
  executed : List Nat
deriving DecidableEq, Repr

namespace Team

/-- The external worker factory (`self._createWorker()`): consume the next
plan entry; `true` yields a fresh worker identifier, otherwise the factory
declines by returning `none`. -/
def createWorker (s : Team) : Option Nat × Team :=
  match s.factoryPlan with
  | true :: rest =>
      (some s.nextWorkerId,
        { s with factoryPlan := rest,
                 nextWorkerId := s.nextWorkerId + 1,
                 createdCount := s.createdCount + 1 })
  | false :: rest => (none, { s with factoryPlan := rest })
  | [] => (none, s)

/-- Embedding of `Team._coordinateThisTask`: pop an idle worker if any,
otherwise ask the factory; on `None` append the task to `_pending` and
return; otherwise increment `_busyCount` and submit the `doWork` item to the
chosen worker (recorded in `running` and in the `dispatched` log). -/
def coordinateThisTask (s : Team) (task : WorkItem) : Team :=
  match s.idle with
  | w :: restIdle =>
      { s with idle := restIdle,
               busyCount := s.busyCount + 1,
               running := s.running ++ [(w, task)],
               dispatched := s.dispatched ++ [task.id] }
  | [] =>
      match s.createWorker with
      | (none, s1) => { s1 with pending := s1.pending ++ [task] }
      | (some w, s1) =>
          { s1 with busyCount := s1.busyCount + 1,
                    running := s1.running ++ [(w, task)],
                    dispatched := s1.dispatched ++ [task.id] }

/-- The `for x in range(n)` loop of `Team._quitIdlers`: at each iteration pop
and retire an idle worker if one exists, else increment `_toShrink`. -/
def quitLoop (s : Team) : Nat → Team
  | 0 => s
  | n + 1 =>
      match s.idle with
      | w :: rest =>
          quitLoop { s with idle := rest, retired := s.retired ++ [w] } n
      | [] => quitLoop { s with toShrink := s.toShrink + 1 } n

/-- Embedding of `Team._quitIdlers`: default `n` to `len(idle) + busyCount`,
run the retire loop, then the coordinator-retirement check: if the
coordinator has not quit, no worker is busy, nothing is pending and the quit
flag is set, retire the coordinator (observed by `coordinatorQuitCount`). -/
def quitIdlers (s : Team) (n : Option Nat) : Team :=
  let count := match n with
    | none => s.idle.length + s.busyCount
    | some k => k
  let s1 := s.quitLoop count
  if (!s1.coordinatorQuit) && (s1.busyCount == 0) && (s1.pending.length == 0)
      && s1.quitIsSet then
    { s1 with coordinatorQuit := true,
              coordinatorQuitCount := s1.coordinatorQuitCount + 1 }
  else s1

/-- Embedding of `Team._recycleWorker`: add the worker to `_idle`; if work is
pending, retry the first enqueued task (explicitly not honouring `_quit`);
else if `_quit.isSet`, run `_quitIdlers()`; else if `_toShrink > 0`,
decrement it, remove the worker from `_idle` and retire it. -/
def recycleWorker (s : Team) (worker : Nat) : Team :=
  let s1 := { s with idle := worker :: s.idle }
  match s1.pending with
  | t :: rest => coordinateThisTask { s1 with pending := rest } t
  | [] =>
      if s1.quitIsSet then s1.quitIdlers none
      else if s1.toShrink > 0 then
        { s1 with toShrink := s1.toShrink - 1,
                  idle := s1.idle.erase worker,
                  retired := s1.retired ++ [worker] }
      else s1

/-- The `createOneWorker` body enqueued by `Team.grow`: up to `n` times, call
the factory; stop at the first `None`, otherwise recycle the new worker into
the pool. -/
def createOneWorker (s : Team) : Nat → Team
  | 0 => s
  | n + 1 =>
      match s.createWorker with
      | (none, s1) => s1
      | (some w, s1) => createOneWorker (s1.recycleWorker w) n

/-- The body of the `doWork` item running on a pool worker: run the task,
catching any exception it raises and reporting it via `logException`
(so nothing propagates out of the worker), then unconditionally submit the
`idleAndPending` item back to the coordinator.  `executed` logs the task
invocation. -/
def finishTask (s : Team) (w : Nat) (task : WorkItem) : Team :=
  let s1 :=
    if task.raises then
      { s with logExceptionCount := s.logExceptionCount + 1 }
    else s
  { s1 with executed := s1.executed ++ [task.id],
            coordQueue := s1.coordQueue ++ [CoordItem.idleAndPending w] }

/-- The `idleAndPending` closure (run on the coordinator): decrement
`_busyCount` and recycle the worker. -/
def idleAndPending (s : Team) (w : Nat) : Team :=
  recycleWorker { s with busyCount := s.busyCount - 1 } w

/-- Execute one coordinator item (the coordinator runs items one at a time,
in submission order). -/
def runCoordItem (s : Team) (item : CoordItem) : Team :=
  match item with
  | CoordItem.coordinateTask t => s.coordinateThisTask t
  | CoordItem.growWorkers n => s.createOneWorker n
  | CoordItem.quitIdlersItem n => s.quitIdlers n
  | CoordItem.idleAndPending w => s.idleAndPending w

/-- Submit an item to the coordinator worker. -/
def enqueue (s : Team) (item : CoordItem) : Team :=
  { s with coordQueue := s.coordQueue ++ [item] }

/-- Modelled from the spec: the check of the `Quit` helper from
`twisted/threads/_convenience.py` (absent from the sources at hand).  Per the
spec, once `quitRequested` is set every public operation fails synchronously
with the shutting-down error; `some ()` stands for that raised error. -/
def quitCheck (s : Team) : Option Unit :=
  if s.quitIsSet then some () else none

/-- Embedding of `Team.do`: check the quit flag (raising, i.e. returning the
error with the state unchanged, if it is set), then enqueue the
`_coordinateThisTask` closure on the coordinator. -/
def teamDo (s : Team) (task : WorkItem) : Option Unit × Team :=
  match s.quitCheck with
  | some e => (some e, s)
  | none => (none, s.enqueue (CoordItem.coordinateTask task))

/-- Embedding of `Team.grow`: quit check, then enqueue the `createOneWorker`
loop on the coordinator. -/
def grow (s : Team) (n : Nat) : Option Unit × Team :=
  match s.quitCheck with
  | some e => (some e, s)
  | none => (none, s.enqueue (CoordItem.growWorkers n))

/-- Embedding of `Team.shrink`: quit check, then enqueue `_quitIdlers(n)` on
the coordinator. -/
def shrink (s : Team) (n : Option Nat) : Option Unit × Team :=
  match s.quitCheck with
  | some e => (some e, s)
  | none => (none, s.enqueue (CoordItem.quitIdlersItem n))

/-- Modelled from the spec: `Quit.set` of
`twisted/threads/_convenience.py` (absent from the sources at hand).  The
spec describes `quitRequested` as a one-shot flag and the pool's `retire`
as idempotent, so setting simply makes the flag true. -/
def quitSet (s : Team) : Team :=
  { s with quitIsSet := true }

/-- Embedding of `Team.quit`: set the quit flag, then enqueue
`_quitIdlers(None)` on the coordinator (in case all workers are idle). -/
def teamQuit (s : Team) : Team :=
  (s.quitSet).enqueue (CoordItem.quitIdlersItem none)

/-- Embedding of `Team.statistics` as the triple of counts it reports. -/
def statistics (s : Team) : Nat × Nat × Nat :=
  (s.idle.length, s.busyCount, s.pending.length)

/-- One step of the whole system: a public call on the facade (errors are
swallowed by the caller, leaving the state as returned), the coordinator
running its next item, or a busy worker finishing its `doWork` item
(position `i` in `running`; worker completions may interleave in any
order). -/
inductive Event where
  | pubDo (t : WorkItem)
  | pubGrow (n : Nat)
  | pubShrink (n : Option Nat)
  | pubQuit
  | runCoord
  | finish (i : Nat)
deriving DecidableEq, Repr

def step (s : Team) (e : Event) : Team :=
  match e with
  | Event.pubDo t => (s.teamDo t).2
  | Event.pubGrow n => (s.grow n).2
  | Event.pubShrink n => (s.shrink n).2
  | Event.pubQuit => s.teamQuit
  | Event.runCoord =>
      match s.coordQueue with
      | [] => s
      | item :: rest => runCoordItem { s with coordQueue := rest } item
  | Event.finish i =>
      match s.running.get? i with
      | none => s
      | some (w, t) => finishTask { s with running := s.running.eraseIdx i } w t

def runEvents (s : Team) : List Event → Team
  | [] => s
  | e :: rest => runEvents (s.step e) rest

end Team

/-- A fresh pool (empty state) whose factory will answer according to
`plan`. -/
def initTeam (plan : List Bool) : Team :=
  { idle := []
    busyCount := 0
    pending := []
    coordinatorQuit := false
    toShrink := 0
    quitIsSet := false
    factoryPlan := plan
    nextWorkerId := 0
    coordQueue := []
    running := []
    createdCount := 0
    retired := []
    coordinatorQuitCount := 0
    logExceptionCount := 0
    dispatched := []
    executed := [] }

/-- A state is reachable when some factory plan and some interleaving of
public calls, coordinator steps and worker completions produces it from a
fresh pool. -/
def Reachable (s : Team) : Prop :=
  ∃ plan es, Team.runEvents (initTeam plan) es = s

/-- Weight of a coordinator item in the busy-count accounting: only
`idleAndPending` items represent a worker that has been handed a task and
not yet handed itself back. -/
def idleWeight : CoordItem → Nat
  | CoordItem.idleAndPending _ => 1
  | _ => 0

/-- Number of `idleAndPending` items in a coordinator queue. -/
def countIdleItems : List CoordItem → Nat
  | [] => 0
  | item :: rest => idleWeight item + countIdleItems rest

/-- Bookkeeping invariant of the pool, at every point between system steps:
`busyCount` counts exactly the workers whose `doWork` item is submitted or
whose hand-back item is still queued; live workers are partitioned between
`idle` and busy; and the coordinator has been retired exactly once if and
only if `coordinatorQuit` is set. -/
def TeamInv (s : Team) : Prop :=
  s.busyCount = s.running.length + countIdleItems s.coordQueue ∧
  s.idle.length + s.busyCount + s.retired.length = s.createdCount ∧
  s.coordinatorQuitCount = (if s.coordinatorQuit then 1 else 0)

namespace Team

lemma createWorker_fresh (s : Team) (rest : List Bool)
    (h : s.factoryPlan = true :: rest) :
    s.createWorker = (some s.nextWorkerId,
      { s with factoryPlan := rest, nextWorkerId := s.nextWorkerId + 1,
               createdCount := s.createdCount + 1 }) := by
  unfold Team.createWorker; rw [h]

lemma createWorker_decline (s : Team) (rest : List Bool)
    (h : s.factoryPlan = false :: rest) :
    s.createWorker = (none, { s with factoryPlan := rest }) := by
  unfold Team.createWorker; rw [h]

lemma createWorker_exhausted (s : Team) (h : s.factoryPlan = []) :
    s.createWorker = (none, s) := by
  unfold Team.createWorker; rw [h]

lemma coordinateThisTask_idle (s : Team) (t : WorkItem) (w : Nat)
    (rest : List Nat) (h : s.idle = w :: rest) :
    s.coordinateThisTask t =
      { s with idle := rest, busyCount := s.busyCount + 1,
               running := s.running ++ [(w, t)],
               dispatched := s.dispatched ++ [t.id] } := by
  unfold Team.coordinateThisTask; rw [h]

lemma coordinateThisTask_decline (s : Team) (t : WorkItem) (rest : List Bool)
    (h : s.idle = []) (hp : s.factoryPlan = false :: rest) :
    s.coordinateThisTask t =
      { s with factoryPlan := rest, pending := s.pending ++ [t] } := by
  unfold Team.coordinateThisTask
  rw [createWorker_decline s rest hp, h]

lemma coordinateThisTask_exhausted (s : Team) (t : WorkItem)
    (h : s.idle = []) (hp : s.factoryPlan = []) :
    s.coordinateThisTask t = { s with pending := s.pending ++ [t] } := by
  simp [Team.coordinateThisTask, Team.createWorker, h, hp]

lemma coordinateThisTask_fresh (s : Team) (t : WorkItem) (rest : List Bool)
    (h : s.idle = []) (hp : s.factoryPlan = true :: rest) :
    s.coordinateThisTask t =
      { s with factoryPlan := rest, nextWorkerId := s.nextWorkerId + 1,
               createdCount := s.createdCount + 1,
               busyCount := s.busyCount + 1,
               running := s.running ++ [(s.nextWorkerId, t)],
               dispatched := s.dispatched ++ [t.id] } := by
  unfold Team.coordinateThisTask
  rw [createWorker_fresh s rest hp, h]

lemma recycleWorker_pending (s : Team) (w : Nat) (t : WorkItem)
    (rest : List WorkItem) (h : s.pending = t :: rest) :
    s.recycleWorker w =
      Team.coordinateThisTask { s with idle := w :: s.idle, pending := rest } t := by
  unfold Team.recycleWorker; rw [h]

lemma recycleWorker_quit (s : Team) (w : Nat)
    (h : s.pending = []) (hq : s.quitIsSet = true) :
    s.recycleWorker w = Team.quitIdlers { s with idle := w :: s.idle } none := by
  unfold Team.recycleWorker; rw [h]; simp [hq]

lemma recycleWorker_shrink (s : Team) (w : Nat)
    (h : s.pending = []) (hq : s.quitIsSet = false) (ht : 0 < s.toShrink) :
    s.recycleWorker w =
      { s with toShrink := s.toShrink - 1, retired := s.retired ++ [w] } := by
  unfold Team.recycleWorker
  rw [h]
  simp only [hq, Bool.false_eq_true, if_false, ht, if_pos]
  rw [List.erase_cons_head]

lemma recycleWorker_park (s : Team) (w : Nat)
    (h : s.pending = []) (hq : s.quitIsSet = false) (ht : s.toShrink = 0) :
    s.recycleWorker w = { s with idle := w :: s.idle } := by
  unfold Team.recycleWorker; rw [h]; simp [hq, ht]

/-- Canonical form of `finishTask`: whatever the task does, the worker logs
at most one exception, records the execution and hands itself back to the
coordinator. -/
lemma finishTask_eq (s : Team) (w : Nat) (t : WorkItem) :
    s.finishTask w t =
      { s with executed := s.executed ++ [t.id],
               coordQueue := s.coordQueue ++ [CoordItem.idleAndPending w],
               logExceptionCount :=
                 s.logExceptionCount + (if t.raises then 1 else 0) } := by
  cases h : t.raises <;> simp [Team.finishTask, h]

end Team

namespace Team

/-- Claim C2: once quit has been requested, `Team.do` and `Team.grow` fail
synchronously with the shutting-down error, before enqueuing anything on the
coordinator, and leave every field of the pool state unchanged. -/
theorem do_and_grow_fail_after_quit :
    ∀ (s : Team) (t : WorkItem) (n : Nat), s.quitIsSet = true →
      s.teamDo t = (some (), s) ∧ s.grow n = (some (), s) := by
  intro s t n h
  constructor <;> simp [Team.teamDo, Team.grow, Team.quitCheck, h]

theorem do_and_grow_fail_after_quit_witness :
    ((initTeam []).teamQuit).teamDo { id := 0, raises := false }
        = (some (), (initTeam []).teamQuit) ∧
    ((initTeam []).teamQuit).grow 3 = (some (), (initTeam []).teamQuit) :=
  do_and_grow_fail_after_quit ((initTeam []).teamQuit)
    { id := 0, raises := false } 3 rfl

/-- Claim C3: the coordinator-side dispatch step pops an idle worker when one
exists; otherwise it consults the factory; if no worker results the task is
appended to `pending` with `busyCount` unchanged; if a worker is obtained,
`busyCount` goes up by exactly one and the run-and-return item for the task
is submitted to that worker. -/
theorem dispatch_step_behaviour :
    (∀ (s : Team) (t : WorkItem) (w : Nat) (rest : List Nat),
        s.idle = w :: rest →
        s.coordinateThisTask t =
          { s with idle := rest, busyCount := s.busyCount + 1,
                   running := s.running ++ [(w, t)],
                   dispatched := s.dispatched ++ [t.id] }) ∧
    (∀ (s : Team) (t : WorkItem) (rest : List Bool),
        s.idle = [] → s.factoryPlan = false :: rest →
        s.coordinateThisTask t =
          { s with factoryPlan := rest, pending := s.pending ++ [t] }) ∧
    (∀ (s : Team) (t : WorkItem),
        s.idle = [] → s.factoryPlan = [] →
        s.coordinateThisTask t = { s with pending := s.pending ++ [t] }) ∧
    (∀ (s : Team) (t : WorkItem) (rest : List Bool),
        s.idle = [] → s.factoryPlan = true :: rest →
        s.coordinateThisTask t =
          { s with factoryPlan := rest, nextWorkerId := s.nextWorkerId + 1,
                   createdCount := s.createdCount + 1,
                   busyCount := s.busyCount + 1,
                   running := s.running ++ [(s.nextWorkerId, t)],
                   dispatched := s.dispatched ++ [t.id] }) :=
  ⟨fun s t w rest h => coordinateThisTask_idle s t w rest h,
   fun s t rest h hp => coordinateThisTask_decline s t rest h hp,
   fun s t h hp => coordinateThisTask_exhausted s t h hp,
   fun s t rest h hp => coordinateThisTask_fresh s t rest h hp⟩

theorem dispatch_step_behaviour_witness :
    ({ initTeam [] with idle := [5] }).coordinateThisTask { id := 3, raises := false }
        = { initTeam [] with
              idle := [], busyCount := 1,
              running := [(5, { id := 3, raises := false })], dispatched := [3] } ∧
    (initTeam [false]).coordinateThisTask { id := 4, raises := false }
        = { initTeam [] with pending := [{ id := 4, raises := false }] } ∧
    (initTeam []).coordinateThisTask { id := 4, raises := false }
        = { initTeam [] with pending := [{ id := 4, raises := false }] } ∧
    (initTeam [true]).coordinateThisTask { id := 6, raises := false }
        = { initTeam [] with
              nextWorkerId := 1, createdCount := 1, busyCount := 1,
              running := [(0, { id := 6, raises := false })], dispatched := [6] } :=
  ⟨dispatch_step_behaviour.1 _ _ 5 [] rfl,
   dispatch_step_behaviour.2.1 _ _ [] rfl rfl,
   dispatch_step_behaviour.2.2.1 _ _ rfl rfl,
   dispatch_step_behaviour.2.2.2 _ _ [] rfl rfl⟩

/-- Claim C4: recycling first parks the worker in `idle`; with a non-empty
backlog its head is dequeued and dispatched (no re-check of the quit flag,
`toShrink` untouched; this holds whatever the quit flag and shrink debt
are); with an empty backlog and quit requested, `quitIdlers` runs; with an
empty backlog, no quit and positive shrink debt, the debt is decremented and
the returning worker is removed from `idle` and retired. -/
theorem recycle_behaviour :
    (∀ (s : Team) (w : Nat) (t : WorkItem) (rest : List WorkItem),
        s.pending = t :: rest →
        s.recycleWorker w =
          Team.coordinateThisTask { s with idle := w :: s.idle, pending := rest } t) ∧
    (∀ (s : Team) (w : Nat), s.pending = [] → s.quitIsSet = true →
        s.recycleWorker w = Team.quitIdlers { s with idle := w :: s.idle } none) ∧
    (∀ (s : Team) (w : Nat), s.pending = [] → s.quitIsSet = false →
        0 < s.toShrink →
        s.recycleWorker w =
          { s with toShrink := s.toShrink - 1, retired := s.retired ++ [w] }) ∧
    (∀ (s : Team) (w : Nat), s.pending = [] → s.quitIsSet = false →
        s.toShrink = 0 → s.recycleWorker w = { s with idle := w :: s.idle }) :=
  ⟨fun s w t rest h => recycleWorker_pending s w t rest h,
   fun s w h hq => recycleWorker_quit s w h hq,
   fun s w h hq ht => recycleWorker_shrink s w h hq ht,
   fun s w h hq ht => recycleWorker_park s w h hq ht⟩

theorem recycle_behaviour_witness :
    ({ initTeam [] with
          pending := [{ id := 9, raises := false }], toShrink := 2,
          quitIsSet := true }).recycleWorker 4
        = Team.coordinateThisTask
            { initTeam [] with idle := [4], toShrink := 2, quitIsSet := true }
            { id := 9, raises := false } ∧
    ({ initTeam [] with quitIsSet := true }).recycleWorker 4
        = Team.quitIdlers { initTeam [] with idle := [4], quitIsSet := true } none ∧
    ({ initTeam [] with toShrink := 2 }).recycleWorker 4
        = { initTeam [] with toShrink := 1, retired := [4] } ∧
    (initTeam []).recycleWorker 4 = { initTeam [] with idle := [4] } :=
  ⟨recycle_behaviour.1 _ 4 _ [] rfl,
   recycle_behaviour.2.1 _ 4 rfl rfl,
   recycle_behaviour.2.2.1 _ 4 rfl rfl (by decide),
   recycle_behaviour.2.2.2 _ 4 rfl rfl rfl⟩

/-- Claim C5 fails as stated: in this reachable state `toShrink = 1`, yet at
the next idle return (worker 0 handing itself back) the backlog wins: the
worker is dispatched a pending task instead of being retired, and `toShrink`
is not decremented. -/
theorem shrink_debt_skipped_counterexample :
    (Team.runEvents (initTeam [true, false])
        [Team.Event.pubDo { id := 0, raises := false }, Team.Event.runCoord,
         Team.Event.pubDo { id := 1, raises := false }, Team.Event.runCoord,
         Team.Event.pubShrink (some 1), Team.Event.runCoord]).toShrink = 1 ∧
    (Team.runEvents (initTeam [true, false])
        [Team.Event.pubDo { id := 0, raises := false }, Team.Event.runCoord,
         Team.Event.pubDo { id := 1, raises := false }, Team.Event.runCoord,
         Team.Event.pubShrink (some 1), Team.Event.runCoord,
         Team.Event.finish 0, Team.Event.runCoord]).toShrink = 1 ∧
    (Team.runEvents (initTeam [true, false])
        [Team.Event.pubDo { id := 0, raises := false }, Team.Event.runCoord,
         Team.Event.pubDo { id := 1, raises := false }, Team.Event.runCoord,
         Team.Event.pubShrink (some 1), Team.Event.runCoord,
         Team.Event.finish 0, Team.Event.runCoord]).retired = [] ∧
    (Team.runEvents (initTeam [true, false])
        [Team.Event.pubDo { id := 0, raises := false }, Team.Event.runCoord,
         Team.Event.pubDo { id := 1, raises := false }, Team.Event.runCoord,
         Team.Event.pubShrink (some 1), Team.Event.runCoord,
         Team.Event.finish 0, Team.Event.runCoord]).running
      = [(0, { id := 1, raises := false })] := by
  refine ⟨rfl, rfl, rfl, rfl⟩

/-- Claim C5, amended: positive shrink debt retires the worker at the next
idle return and is decremented at that moment, provided the backlog is empty
and quit has not been requested at that return (otherwise the backlog or the
quit path wins and the debt is untouched). -/
theorem shrink_debt_applied_on_clean_return :
    ∀ (s : Team) (w : Nat), 0 < s.toShrink → s.pending = [] →
      s.quitIsSet = false →
      (s.recycleWorker w).toShrink = s.toShrink - 1 ∧
      (s.recycleWorker w).retired = s.retired ++ [w] ∧
      (s.recycleWorker w).idle = s.idle ∧
      (s.recycleWorker w).busyCount = s.busyCount := by
  intro s w ht h hq
  rw [recycleWorker_shrink s w h hq ht]
  exact ⟨rfl, rfl, rfl, rfl⟩

theorem shrink_debt_applied_on_clean_return_witness :
    (({ initTeam [] with toShrink := 1 }).recycleWorker 7).toShrink = 0 ∧
    (({ initTeam [] with toShrink := 1 }).recycleWorker 7).retired = [7] ∧
    (({ initTeam [] with toShrink := 1 }).recycleWorker 7).idle = [] ∧
    (({ initTeam [] with toShrink := 1 }).recycleWorker 7).busyCount = 0 :=
  shrink_debt_applied_on_clean_return { initTeam [] with toShrink := 1 } 7
    (by decide) rfl rfl

/-- Claim C8: a task that raises has its exception caught inside the worker
(`finishTask` is total and differs from the non-raising run only in the
error-reporter count, which goes up by exactly one), and the worker is still
handed back to the coordinator, whose `idleAndPending` item decrements
`busyCount` and recycles the worker exactly as for a normal task. -/
theorem task_error_contained_and_worker_recycled :
    ∀ (s : Team) (w : Nat) (t : WorkItem),
      (s.finishTask w t).logExceptionCount
          = s.logExceptionCount + (if t.raises then 1 else 0) ∧
      (s.finishTask w t).coordQueue
          = s.coordQueue ++ [CoordItem.idleAndPending w] ∧
      s.finishTask w { id := t.id, raises := true }
          = { s.finishTask w { id := t.id, raises := false } with
              logExceptionCount :=
                (s.finishTask w { id := t.id, raises := false }).logExceptionCount + 1 } ∧
      Team.runCoordItem s (CoordItem.idleAndPending w)
          = Team.recycleWorker { s with busyCount := s.busyCount - 1 } w := by
  intro s w t
  refine ⟨?_, ?_, ?_, rfl⟩
  · rw [finishTask_eq]
  · rw [finishTask_eq]
  · rw [finishTask_eq, finishTask_eq]
    rfl

/-- Claim C10: when recycling dequeues a pending task and re-invokes
dispatch, the idle set contains at least the just-parked worker, so the
idle-pop branch is taken: the factory is never consulted (its oracle and the
created-worker count are unchanged), nothing is re-appended to the backlog,
and the dequeued task is always dispatched to a worker. -/
theorem recycle_drain_always_dispatches :
    ∀ (s : Team) (w : Nat) (t : WorkItem) (rest : List WorkItem),
      s.pending = t :: rest →
      s.recycleWorker w =
        { s with pending := rest, busyCount := s.busyCount + 1,
                 running := s.running ++ [(w, t)],
                 dispatched := s.dispatched ++ [t.id] } := by
  intro s w t rest h
  rw [recycleWorker_pending s w t rest h,
      coordinateThisTask_idle _ t w s.idle rfl]

theorem recycle_drain_always_dispatches_witness :
    ({ initTeam [false] with pending := [{ id := 2, raises := false }] }).recycleWorker 1
        = { initTeam [false] with
              pending := [], busyCount := 1,
              running := [(1, { id := 2, raises := false })], dispatched := [2] } :=
  recycle_drain_always_dispatches _ 1 _ [] rfl

end Team

lemma countIdleItems_append (a b : List CoordItem) :
    countIdleItems (a ++ b) = countIdleItems a + countIdleItems b := by
  induction a with
  | nil => simp [countIdleItems]
  | cons x rest ih => simp [countIdleItems, ih]; omega

lemma countIdleItems_single (item : CoordItem) :
    countIdleItems [item] = idleWeight item := by
  simp [countIdleItems]

namespace Team

lemma quitLoop_proj (n : Nat) (s : Team) :
    (s.quitLoop n).busyCount = s.busyCount ∧
    (s.quitLoop n).pending = s.pending ∧
    (s.quitLoop n).quitIsSet = s.quitIsSet ∧
    (s.quitLoop n).coordinatorQuit = s.coordinatorQuit ∧
    (s.quitLoop n).coordinatorQuitCount = s.coordinatorQuitCount ∧
    (s.quitLoop n).coordQueue = s.coordQueue ∧
    (s.quitLoop n).running = s.running ∧
    (s.quitLoop n).createdCount = s.createdCount ∧
    (s.quitLoop n).idle.length + (s.quitLoop n).retired.length
        = s.idle.length + s.retired.length := by
  induction n generalizing s with
  | zero => simp [Team.quitLoop]
  | succ n ih =>
    cases h : s.idle with
    | nil =>
      simpa [Team.quitLoop, h] using ih { s with toShrink := s.toShrink + 1 }
    | cons w rest =>
      have H := ih { s with idle := rest, retired := s.retired ++ [w] }
      simp only [Team.quitLoop, h]
      simp only at H
      obtain ⟨H1, H2, H3, H4, H5, H6, H7, H8, H9⟩ := H
      refine ⟨H1, H2, H3, H4, H5, H6, H7, H8, ?_⟩
      simp at H9 ⊢
      omega

lemma inv_quitLoop (n : Nat) (s : Team) (h : TeamInv s) :
    TeamInv (s.quitLoop n) := by
  obtain ⟨h1, h2, h3⟩ := h
  obtain ⟨H1, _, _, H4, H5, H6, H7, H8, H9⟩ := quitLoop_proj n s
  exact ⟨by rw [H1, H6, H7]; exact h1,
         by rw [H1, H8]; omega,
         by rw [H5, H4]; exact h3⟩

/-- The coordinator-retirement check at the end of `_quitIdlers`, as a
standalone state transformer. -/
lemma inv_quitCheckStep (s1 : Team) (h : TeamInv s1) :
    TeamInv (if (!s1.coordinatorQuit) && (s1.busyCount == 0)
        && (s1.pending.length == 0) && s1.quitIsSet then
      { s1 with coordinatorQuit := true,
                coordinatorQuitCount := s1.coordinatorQuitCount + 1 }
    else s1) := by
  obtain ⟨L1, L2, L3⟩ := h
  by_cases hc : ((!s1.coordinatorQuit) && (s1.busyCount == 0)
      && (s1.pending.length == 0) && s1.quitIsSet) = true
  · rw [if_pos hc]
    simp only [Bool.and_eq_true, Bool.not_eq_true'] at hc
    refine ⟨L1, L2, ?_⟩
    rw [hc.1.1.1] at L3
    simp only [Bool.false_eq_true, if_false] at L3
    simp [L3]
  · rw [if_neg hc]
    exact ⟨L1, L2, L3⟩

lemma inv_quitIdlers (s : Team) (n : Option Nat) (h : TeamInv s) :
    TeamInv (s.quitIdlers n) :=
  inv_quitCheckStep _
    (inv_quitLoop (match n with
      | none => s.idle.length + s.busyCount
      | some k => k) s h)

lemma inv_coordinateThisTask (s : Team) (t : WorkItem) (h : TeamInv s) :
    TeamInv (s.coordinateThisTask t) := by
  obtain ⟨h1, h2, h3⟩ := h
  cases hi : s.idle with
  | cons w rest =>
    rw [coordinateThisTask_idle s t w rest hi]
    have hlen : s.idle.length = rest.length + 1 := by rw [hi]; rfl
    refine ⟨?_, ?_, h3⟩
    · simp only [List.length_append, List.length_cons, List.length_nil]
      omega
    · simp only
      omega
  | nil =>
    have hlen : s.idle.length = 0 := by rw [hi]; rfl
    cases hp : s.factoryPlan with
    | nil =>
      rw [coordinateThisTask_exhausted s t hi hp]
      exact ⟨h1, h2, h3⟩
    | cons b rest =>
      cases b with
      | false =>
        rw [coordinateThisTask_decline s t rest hi hp]
        exact ⟨h1, h2, h3⟩
      | true =>
        rw [coordinateThisTask_fresh s t rest hi hp]
        refine ⟨?_, ?_, h3⟩
        · simp only [List.length_append, List.length_cons, List.length_nil]
          omega
        · simp only
          omega

/-- Hypotheses available when `_recycleWorker` is entered: the invariant
holds up to the one worker being handed back (it is counted neither in
`idle` nor in `busyCount` at that instant). -/
lemma inv_recycleWorker (s : Team) (w : Nat)
    (h1 : s.busyCount = s.running.length + countIdleItems s.coordQueue)
    (h2 : s.idle.length + s.busyCount + s.retired.length + 1 = s.createdCount)
    (h3 : s.coordinatorQuitCount = (if s.coordinatorQuit then 1 else 0)) :
    TeamInv (s.recycleWorker w) := by
  cases hp : s.pending with
  | cons t rest =>
    rw [recycleWorker_pending s w t rest hp]
    refine inv_coordinateThisTask _ t ⟨h1, ?_, h3⟩
    simp only [List.length_cons]
    omega
  | nil =>
    cases hq : s.quitIsSet with
    | true =>
      rw [recycleWorker_quit s w hp hq]
      refine inv_quitIdlers _ none ⟨h1, ?_, h3⟩
      simp only [List.length_cons]
      omega
    | false =>
      cases ht : s.toShrink with
      | zero =>
        rw [recycleWorker_park s w hp hq ht]
        refine ⟨h1, ?_, h3⟩
        simp only [List.length_cons]
        omega
      | succ m =>
        rw [recycleWorker_shrink s w hp hq (by omega)]
        refine ⟨h1, ?_, h3⟩
        simp only [List.length_append, List.length_cons, List.length_nil]
        omega

lemma createOneWorker_succ (s : Team) (n : Nat) :
    s.createOneWorker (n + 1) =
      (match s.createWorker with
        | (none, s1) => s1
        | (some w, s1) => (s1.recycleWorker w).createOneWorker n) := rfl

lemma createOneWorker_exhausted (s : Team) (n : Nat) (hp : s.factoryPlan = []) :
    s.createOneWorker (n + 1) = s := by
  rw [createOneWorker_succ, createWorker_exhausted s hp]

lemma createOneWorker_decline (s : Team) (n : Nat) (rest : List Bool)
    (hp : s.factoryPlan = false :: rest) :
    s.createOneWorker (n + 1) = { s with factoryPlan := rest } := by
  rw [createOneWorker_succ, createWorker_decline s rest hp]

lemma createOneWorker_fresh (s : Team) (n : Nat) (rest : List Bool)
    (hp : s.factoryPlan = true :: rest) :
    s.createOneWorker (n + 1) =
      (({ s with factoryPlan := rest, nextWorkerId := s.nextWorkerId + 1,
                 createdCount := s.createdCount + 1 }).recycleWorker
        s.nextWorkerId).createOneWorker n := by
  rw [createOneWorker_succ, createWorker_fresh s rest hp]

lemma inv_createOneWorker (n : Nat) (s : Team) (h : TeamInv s) :
    TeamInv (s.createOneWorker n) := by
  induction n generalizing s with
  | zero => exact h
  | succ n ih =>
    obtain ⟨h1, h2, h3⟩ := h
    cases hp : s.factoryPlan with
    | nil => rw [createOneWorker_exhausted s n hp]; exact ⟨h1, h2, h3⟩
    | cons b rest =>
      cases b with
      | false => rw [createOneWorker_decline s n rest hp]; exact ⟨h1, h2, h3⟩
      | true =>
        rw [createOneWorker_fresh s n rest hp]
        refine ih _ (inv_recycleWorker _ _ h1 ?_ h3)
        simp only
        omega

lemma get?_some_length {α : Type} {l : List α} {i : Nat} {a : α}
    (h : l.get? i = some a) : (l.eraseIdx i).length + 1 = l.length := by
  induction l generalizing i with
  | nil => simp [List.get?] at h
  | cons x rest ih =>
    cases i with
    | zero => simp [List.eraseIdx]
    | succ j =>
      simp only [List.get?] at h
      simpa [List.eraseIdx] using ih h

lemma step_pubDo (s : Team) (t : WorkItem) :
    s.step (Event.pubDo t) = (s.teamDo t).2 := rfl

lemma step_pubGrow (s : Team) (n : Nat) :
    s.step (Event.pubGrow n) = (s.grow n).2 := rfl

lemma step_pubShrink (s : Team) (n : Option Nat) :
    s.step (Event.pubShrink n) = (s.shrink n).2 := rfl

lemma step_pubQuit (s : Team) : s.step Event.pubQuit = s.teamQuit := rfl

lemma step_runCoord_nil (s : Team) (h : s.coordQueue = []) :
    s.step Event.runCoord = s := by
  unfold Team.step
  rw [h]

lemma step_runCoord_cons (s : Team) (item : CoordItem) (rest : List CoordItem)
    (h : s.coordQueue = item :: rest) :
    s.step Event.runCoord =
      Team.runCoordItem { s with coordQueue := rest } item := by
  unfold Team.step
  rw [h]

lemma step_finish_none (s : Team) (i : Nat) (h : s.running.get? i = none) :
    s.step (Event.finish i) = s := by
  show (match s.running.get? i with
    | none => s
    | some (w, t) =>
        Team.finishTask { s with running := s.running.eraseIdx i } w t) = s
  rw [h]

lemma step_finish_some (s : Team) (i w : Nat) (t : WorkItem)
    (h : s.running.get? i = some (w, t)) :
    s.step (Event.finish i) =
      Team.finishTask { s with running := s.running.eraseIdx i } w t := by
  show (match s.running.get? i with
    | none => s
    | some (w1, t1) =>
        Team.finishTask { s with running := s.running.eraseIdx i } w1 t1) =
    Team.finishTask { s with running := s.running.eraseIdx i } w t
  rw [h]

lemma teamDo_quit (s : Team) (t : WorkItem) (h : s.quitIsSet = true) :
    s.teamDo t = (some (), s) := by
  simp [Team.teamDo, Team.quitCheck, h]

lemma teamDo_open (s : Team) (t : WorkItem) (h : s.quitIsSet = false) :
    s.teamDo t = (none, s.enqueue (CoordItem.coordinateTask t)) := by
  simp [Team.teamDo, Team.quitCheck, h]

lemma grow_quit (s : Team) (n : Nat) (h : s.quitIsSet = true) :
    s.grow n = (some (), s) := by
  simp [Team.grow, Team.quitCheck, h]

lemma grow_open (s : Team) (n : Nat) (h : s.quitIsSet = false) :
    s.grow n = (none, s.enqueue (CoordItem.growWorkers n)) := by
  simp [Team.grow, Team.quitCheck, h]

lemma shrink_quit (s : Team) (n : Option Nat) (h : s.quitIsSet = true) :
    s.shrink n = (some (), s) := by
  simp [Team.shrink, Team.quitCheck, h]

lemma shrink_open (s : Team) (n : Option Nat) (h : s.quitIsSet = false) :
    s.shrink n = (none, s.enqueue (CoordItem.quitIdlersItem n)) := by
  simp [Team.shrink, Team.quitCheck, h]

lemma inv_enqueue (s : Team) (item : CoordItem)
    (hw : idleWeight item = 0) (h : TeamInv s) : TeamInv (s.enqueue item) := by
  obtain ⟨h1, h2, h3⟩ := h
  refine ⟨?_, h2, h3⟩
  simp only [Team.enqueue, countIdleItems_append, countIdleItems, hw]
  omega

lemma inv_step (s : Team) (e : Event) (h : TeamInv s) : TeamInv (s.step e) := by
  cases e with
  | pubDo t =>
    rw [step_pubDo]
    cases hq : s.quitIsSet with
    | true => rw [teamDo_quit s t hq]; exact h
    | false => rw [teamDo_open s t hq]; exact inv_enqueue s _ rfl h
  | pubGrow n =>
    rw [step_pubGrow]
    cases hq : s.quitIsSet with
    | true => rw [grow_quit s n hq]; exact h
    | false => rw [grow_open s n hq]; exact inv_enqueue s _ rfl h
  | pubShrink n =>
    rw [step_pubShrink]
    cases hq : s.quitIsSet with
    | true => rw [shrink_quit s n hq]; exact h
    | false => rw [shrink_open s n hq]; exact inv_enqueue s _ rfl h
  | pubQuit =>
    rw [step_pubQuit]
    obtain ⟨h1, h2, h3⟩ := h
    exact inv_enqueue _ _ rfl ⟨h1, h2, h3⟩
  | runCoord =>
    cases hq : s.coordQueue with
    | nil => rw [step_runCoord_nil s hq]; exact h
    | cons item rest =>
      rw [step_runCoord_cons s item rest hq]
      obtain ⟨h1, h2, h3⟩ := h
      have hcount : s.busyCount = s.running.length
          + (idleWeight item + countIdleItems rest) := by
        rw [h1, hq]; rfl
      cases item with
      | coordinateTask t =>
        refine inv_coordinateThisTask _ t ⟨?_, h2, h3⟩
        show s.busyCount = s.running.length + countIdleItems rest
        simp only [idleWeight] at hcount
        omega
      | growWorkers n =>
        refine inv_createOneWorker n _ ⟨?_, h2, h3⟩
        show s.busyCount = s.running.length + countIdleItems rest
        simp only [idleWeight] at hcount
        omega
      | quitIdlersItem n =>
        refine inv_quitIdlers _ n ⟨?_, h2, h3⟩
        show s.busyCount = s.running.length + countIdleItems rest
        simp only [idleWeight] at hcount
        omega
      | idleAndPending w =>
        show TeamInv (Team.idleAndPending _ w)
        unfold Team.idleAndPending
        simp only [idleWeight] at hcount
        refine inv_recycleWorker _ w ?_ ?_ h3
        · show s.busyCount - 1 = s.running.length + countIdleItems rest
          omega
        · show s.idle.length + (s.busyCount - 1) + s.retired.length + 1
              = s.createdCount
          omega
  | finish i =>
    cases hr : s.running.get? i with
    | none => rw [step_finish_none s i hr]; exact h
    | some p =>
      obtain ⟨w, t⟩ := p
      obtain ⟨h1, h2, h3⟩ := h
      have hlen := get?_some_length hr
      rw [step_finish_some s i w t hr, finishTask_eq]
      refine ⟨?_, h2, h3⟩
      simp only [countIdleItems_append, countIdleItems, idleWeight]
      omega

lemma inv_runEvents (es : List Event) (s : Team) (h : TeamInv s) :
    TeamInv (s.runEvents es) := by
  induction es generalizing s with
  | nil => exact h
  | cons e rest ih => exact ih _ (inv_step s e h)

lemma inv_initTeam (plan : List Bool) : TeamInv (initTeam plan) :=
  ⟨rfl, rfl, rfl⟩

lemma inv_reachable (s : Team) (h : Reachable s) : TeamInv s := by
  obtain ⟨plan, es, rfl⟩ := h
  exact inv_runEvents es _ (inv_initTeam plan)

end Team

namespace Team

/-- Claim C7: for every sequence of operations from a fresh pool (any
factory plan, any interleaving of public calls, coordinator items and
worker completions), the size of the idle set plus `busyCount` equals the
number of workers the factory has produced minus the number retired; every
live worker is accounted for exactly once. -/
theorem live_worker_accounting :
    ∀ s : Team, Reachable s →
      s.idle.length + s.busyCount = s.createdCount - s.retired.length ∧
      s.idle.length + s.busyCount + s.retired.length = s.createdCount := by
  intro s h
  have h2 := (inv_reachable s h).2.1
  omega

theorem live_worker_accounting_witness :
    (Team.runEvents (initTeam [true, true])
        [Team.Event.pubGrow 2, Team.Event.runCoord]).idle.length
        + (Team.runEvents (initTeam [true, true])
            [Team.Event.pubGrow 2, Team.Event.runCoord]).busyCount
      = (Team.runEvents (initTeam [true, true])
            [Team.Event.pubGrow 2, Team.Event.runCoord]).createdCount
        - (Team.runEvents (initTeam [true, true])
            [Team.Event.pubGrow 2, Team.Event.runCoord]).retired.length ∧
    (Team.runEvents (initTeam [true, true])
        [Team.Event.pubGrow 2, Team.Event.runCoord]).idle.length
        + (Team.runEvents (initTeam [true, true])
            [Team.Event.pubGrow 2, Team.Event.runCoord]).busyCount
        + (Team.runEvents (initTeam [true, true])
            [Team.Event.pubGrow 2, Team.Event.runCoord]).retired.length
      = (Team.runEvents (initTeam [true, true])
            [Team.Event.pubGrow 2, Team.Event.runCoord]).createdCount :=
  live_worker_accounting _
    ⟨[true, true], [Team.Event.pubGrow 2, Team.Event.runCoord], rfl⟩

/-- Claim C1 fails as stated: in this run (`grow(2)`, let it complete, then
`shrink(1)` followed immediately by `quit()`), the shrink item executes
with the quit flag already set; after retiring one worker the retirement
check passes — `busyCount = 0`, `pending` empty, quit requested — and the
coordinator is retired even though worker 0 is still idle.  The check in
`_quitIdlers` does not inspect the idle set. -/
theorem coordinator_retired_with_idle_worker :
    (Team.runEvents (initTeam [true, true])
        [Team.Event.pubGrow 2, Team.Event.runCoord,
         Team.Event.pubShrink (some 1), Team.Event.pubQuit,
         Team.Event.runCoord]).coordinatorQuitCount = 1 ∧
    (Team.runEvents (initTeam [true, true])
        [Team.Event.pubGrow 2, Team.Event.runCoord,
         Team.Event.pubShrink (some 1), Team.Event.pubQuit,
         Team.Event.runCoord]).idle = [0] ∧
    (Team.runEvents (initTeam [true, true])
        [Team.Event.pubGrow 2, Team.Event.runCoord,
         Team.Event.pubShrink (some 1), Team.Event.pubQuit,
         Team.Event.runCoord]).retired = [1] ∧
    (Team.runEvents (initTeam [true, true])
        [Team.Event.pubGrow 2, Team.Event.runCoord,
         Team.Event.pubShrink (some 1), Team.Event.pubQuit,
         Team.Event.runCoord]).busyCount = 0 :=
  ⟨rfl, rfl, rfl, rfl⟩

lemma quitLoop_zero (s : Team) : s.quitLoop 0 = s := rfl

lemma quitIdlers_none_eq_some (s : Team) :
    s.quitIdlers none = s.quitIdlers (some (s.idle.length + s.busyCount)) := rfl

lemma quitIdlers_some_def (s : Team) (k : Nat) :
    s.quitIdlers (some k) =
      if (!(s.quitLoop k).coordinatorQuit) && ((s.quitLoop k).busyCount == 0)
          && ((s.quitLoop k).pending.length == 0)
          && (s.quitLoop k).quitIsSet then
        { s.quitLoop k with coordinatorQuit := true,
                            coordinatorQuitCount :=
                              (s.quitLoop k).coordinatorQuitCount + 1 }
      else s.quitLoop k := rfl

lemma quitIdlers_retires_coordinator_only_when (s : Team) (k : Nat)
    (hk : (s.quitIdlers (some k)).coordinatorQuitCount
        ≠ s.coordinatorQuitCount) :
    s.coordinatorQuit = false ∧ s.busyCount = 0 ∧ s.pending = [] ∧
      s.quitIsSet = true ∧
      (s.quitIdlers (some k)).coordinatorQuit = true ∧
      (s.quitIdlers (some k)).coordinatorQuitCount
        = s.coordinatorQuitCount + 1 := by
  obtain ⟨P1, P2, P3, P4, P5, -, -, -, -⟩ := quitLoop_proj k s
  by_cases hc : ((!(s.quitLoop k).coordinatorQuit)
      && ((s.quitLoop k).busyCount == 0)
      && ((s.quitLoop k).pending.length == 0)
      && (s.quitLoop k).quitIsSet) = true
  · rw [quitIdlers_some_def, if_pos hc] at hk ⊢
    simp only [Bool.and_eq_true, Bool.not_eq_true', beq_iff_eq] at hc
    obtain ⟨⟨⟨hcq, hbusy⟩, hpend⟩, hquit⟩ := hc
    refine ⟨by rw [← P4]; exact hcq, by rw [← P1]; exact hbusy, ?_,
            by rw [← P3]; exact hquit, rfl, ?_⟩
    · have hlenz : s.pending.length = 0 := by rw [← P2]; exact hpend
      exact List.length_eq_zero.mp hlenz
    · show (s.quitLoop k).coordinatorQuitCount + 1
          = s.coordinatorQuitCount + 1
      rw [P5]
  · rw [quitIdlers_some_def, if_neg hc] at hk
    exact absurd P5 hk

/-- Claim C1, amended: over every reachable state the coordinator has been
retired at most once (never twice), and `_quitIdlers` — the only routine
that retires the coordinator — does so only at a point where the quit flag
is set, `busyCount` is zero and the pending backlog is empty.  The original
claim's further condition that no idle workers remain does not hold (see
the counterexample): the retirement check does not inspect the idle set. -/
theorem coordinator_retired_once_when_quiet :
    (∀ s : Team, Reachable s → s.coordinatorQuitCount ≤ 1) ∧
    (∀ (s : Team) (n : Option Nat),
        (s.quitIdlers n).coordinatorQuitCount ≠ s.coordinatorQuitCount →
        s.coordinatorQuit = false ∧ s.busyCount = 0 ∧ s.pending = [] ∧
          s.quitIsSet = true ∧
          (s.quitIdlers n).coordinatorQuit = true ∧
          (s.quitIdlers n).coordinatorQuitCount
            = s.coordinatorQuitCount + 1) := by
  constructor
  · intro s h
    have h3 := (inv_reachable s h).2.2
    rw [h3]
    split <;> omega
  · intro s n hne
    cases n with
    | some k => exact quitIdlers_retires_coordinator_only_when s k hne
    | none =>
      rw [quitIdlers_none_eq_some] at hne ⊢
      exact quitIdlers_retires_coordinator_only_when s _ hne

theorem coordinator_retired_once_when_quiet_witness :
    (initTeam []).coordinatorQuitCount ≤ 1 ∧
    (({ initTeam [] with quitIsSet := true }).coordinatorQuit = false ∧
      ({ initTeam [] with quitIsSet := true }).busyCount = 0 ∧
      ({ initTeam [] with quitIsSet := true }).pending = [] ∧
      ({ initTeam [] with quitIsSet := true }).quitIsSet = true ∧
      (({ initTeam [] with quitIsSet := true }).quitIdlers none).coordinatorQuit
        = true ∧
      (({ initTeam [] with
          quitIsSet := true }).quitIdlers none).coordinatorQuitCount
        = ({ initTeam [] with quitIsSet := true }).coordinatorQuitCount + 1) :=
  ⟨coordinator_retired_once_when_quiet.1 (initTeam []) ⟨[], [], rfl⟩,
   coordinator_retired_once_when_quiet.2 { initTeam [] with quitIsSet := true }
     none (by decide)⟩

end Team

namespace Team

/-- Claim C6: the backlog is drained in FIFO order.  First conjunct: when
the idle set is empty and the factory declines three times, dispatching
T1, T2, T3 enqueues them on `pending` in that order (busy count unchanged,
nothing dispatched).  Second conjunct: from any state with backlog
[T1, T2, T3] and a single busy worker, as the worker becomes available one
completion at a time, the tasks run in the order T1, T2, T3 (after the
in-flight T0). -/
theorem backlog_fifo :
    (∀ (s : Team) (t1 t2 t3 : WorkItem) (rest : List Bool),
        s.idle = [] → s.pending = [] →
        s.factoryPlan = false :: false :: false :: rest →
        (((s.coordinateThisTask t1).coordinateThisTask t2).coordinateThisTask
            t3).pending = [t1, t2, t3] ∧
        (((s.coordinateThisTask t1).coordinateThisTask t2).coordinateThisTask
            t3).busyCount = s.busyCount ∧
        (((s.coordinateThisTask t1).coordinateThisTask t2).coordinateThisTask
            t3).idle = [] ∧
        (((s.coordinateThisTask t1).coordinateThisTask t2).coordinateThisTask
            t3).dispatched = s.dispatched) ∧
    (∀ (s : Team) (w : Nat) (t0 t1 t2 t3 : WorkItem),
        s.pending = [t1, t2, t3] → s.idle = [] → s.running = [(w, t0)] →
        s.coordQueue = [] →
        (s.runEvents [Event.finish 0, Event.runCoord, Event.finish 0,
            Event.runCoord, Event.finish 0, Event.runCoord,
            Event.finish 0]).executed
          = s.executed ++ [t0.id, t1.id, t2.id, t3.id]) := by
  constructor
  · intro s t1 t2 t3 rest hi hp hpl
    simp [Team.coordinateThisTask, Team.createWorker, hi, hp, hpl]
  · intro s w t0 t1 t2 t3 hp hi hr hq
    simp [Team.runEvents, Team.step, Team.runCoordItem, Team.idleAndPending,
          Team.recycleWorker, Team.coordinateThisTask, finishTask_eq,
          hp, hi, hr, hq, List.get?, List.eraseIdx]

theorem backlog_fifo_witness :
    ((((initTeam [false, false, false]).coordinateThisTask
        { id := 1, raises := false }).coordinateThisTask
        { id := 2, raises := false }).coordinateThisTask
        { id := 3, raises := false }).pending
      = [{ id := 1, raises := false }, { id := 2, raises := false },
         { id := 3, raises := false }] ∧
    (Team.runEvents
        (Team.runEvents (initTeam [true, false, false, false])
          [Event.pubDo { id := 0, raises := false }, Event.runCoord,
           Event.pubDo { id := 1, raises := false }, Event.runCoord,
           Event.pubDo { id := 2, raises := false }, Event.runCoord,
           Event.pubDo { id := 3, raises := false }, Event.runCoord])
        [Event.finish 0, Event.runCoord, Event.finish 0, Event.runCoord,
         Event.finish 0, Event.runCoord, Event.finish 0]).executed
      = (Team.runEvents (initTeam [true, false, false, false])
          [Event.pubDo { id := 0, raises := false }, Event.runCoord,
           Event.pubDo { id := 1, raises := false }, Event.runCoord,
           Event.pubDo { id := 2, raises := false }, Event.runCoord,
           Event.pubDo { id := 3, raises := false }, Event.runCoord]).executed
        ++ [0, 1, 2, 3] :=
  ⟨(backlog_fifo.1 (initTeam [false, false, false]) _ _ _ [] rfl rfl rfl).1,
   backlog_fifo.2 _ 0 { id := 0, raises := false } { id := 1, raises := false }
     { id := 2, raises := false } { id := 3, raises := false } rfl rfl rfl rfl⟩

/-- Claim C9 fails in its "no further effect" part: with one busy worker,
`quit()` leaves `toShrink = 1` once its `quitIdlers` item has run; a second
`quit()` (idempotent at the flag level, and raising nothing in this model)
re-enqueues `quitIdlers`, whose run bumps `toShrink` to 2 — a further state
change. -/
theorem second_quit_changes_state :
    (Team.runEvents (initTeam [true])
        [Event.pubDo { id := 0, raises := false }, Event.runCoord,
         Event.pubQuit, Event.runCoord]).toShrink = 1 ∧
    (Team.runEvents (initTeam [true])
        [Event.pubDo { id := 0, raises := false }, Event.runCoord,
         Event.pubQuit, Event.runCoord,
         Event.pubQuit, Event.runCoord]).toShrink = 2 :=
  ⟨rfl, rfl⟩

/-- Claim C9, amended: a second `quit` succeeds without raising and changes
nothing synchronously — the quit flag and every other pool field are
untouched; it merely enqueues one more `quitIdlers` item.  Once the pool
has quiesced from the first quit (idle empty, busy count zero, coordinator
already retired), that redundant item is a complete no-op, so `quit` is
idempotent at quiescence; in mid-shutdown states the redundant item can
still bump the (dead, once quit is set) `toShrink` counter. -/
theorem second_quit_amended :
    (∀ s : Team, s.quitIsSet = true →
        s.teamQuit = { s with
          coordQueue := s.coordQueue ++ [CoordItem.quitIdlersItem none] }) ∧
    (∀ s : Team, s.idle = [] → s.busyCount = 0 → s.coordinatorQuit = true →
        s.quitIdlers none = s) := by
  constructor
  · intro s h
    obtain ⟨i, b, p, cq, ts, q, fp, nw, qu, run, cc, ret, qc, lec, d, ex⟩ := s
    change q = true at h
    subst h
    rfl
  · intro s h1 h2 h3
    have hk : s.idle.length + s.busyCount = 0 := by rw [h1, h2]; rfl
    rw [quitIdlers_none_eq_some, hk, quitIdlers_some_def, quitLoop_zero, h3]
    rfl

theorem second_quit_amended_witness :
    ((initTeam []).teamQuit).teamQuit
      = { (initTeam []).teamQuit with
          coordQueue := ((initTeam []).teamQuit).coordQueue
            ++ [CoordItem.quitIdlersItem none] } ∧
    ({ initTeam [] with coordinatorQuit := true }).quitIdlers none
      = { initTeam [] with coordinatorQuit := true } :=
  ⟨second_quit_amended.1 _ rfl, second_quit_amended.2 _ rfl rfl rfl⟩

end Team
